import Mathlib

/-!
Shallow embedding of the task-graph planner / scheduler / synthesizer core of
the repository (src/backend/app/agents/orchestrator.py and
src/backend/app/agents/task_planner.py), together with theorems settling the
spec claims about it.  External LLM calls ("oracles") and the external agent
executors are modelled as explicit parameters: an oracle call is an
`Except String _` value (error = the raised exception or unparsable output),
and the executor registry is a function from (agent_type, description) to the
observed run outcome.
-/

set_option maxHeartbeats 1000000

namespace SuperAgent

/-- Lifecycle status of an orchestrator task, from the comment on
AgentTask.status in orchestrator.py: pending, running, completed, failed.
The pure embedding records the settled value of the field between waves. -/
inductive AStatus
  | pending
  | running
  | completed
  | failed
deriving DecidableEq, Repr

/-- Dictionary returned by an agent's run method, as read by the
orchestrator: the success flag, the output payload (read with default), and
an optional error message. -/
structure RunDict where
  success : Bool
  output : String
  error : Option String
deriving DecidableEq, Repr

/-- AgentTask from orchestrator.py: id, agent type, description, dependency
ids, and the mutable status / result / error fields. -/
structure AgentTask where
  task_id : String
  agent_type : String
  description : String
  dependencies : List String
  status : AStatus := .pending
  result : Option RunDict := none
  error : Option String := none
deriving DecidableEq, Repr

/-- Observed outcome of one call agent.run(description, metadata): either the
returned dictionary, or a raised exception with its message (this also covers
the ValueError raised by _get_agent for an unknown agent type, since that
raise happens inside execute_task's try block). -/
inductive RunOutcome
  | ok (d : RunDict)
  | fault (msg : String)
deriving DecidableEq, Repr

/-- Executor registry: agent_type and description determine the run outcome.
The orchestrator treats its agent cache as a read-only lookup during one
execute pass, so a function is a faithful model. -/
def Registry : Type := String → String → RunOutcome

/-- MultiAgentOrchestrator.execute_task: set status running, call the agent,
then set completed with the result dict, or failed with the error message
(default "Unknown error"); a raised exception is caught and recorded as
failed with str(e).  The function never raises. -/
def execute_task (reg : Registry) (t : AgentTask) : AgentTask :=
  match reg t.agent_type t.description with
  | .fault msg => { t with status := .failed, error := some msg }
  | .ok d =>
      if d.success then { t with status := .completed, result := some d }
      else { t with status := .failed, error := some (d.error.getD "Unknown error") }

/-- Ready test from the wave loop of execute_tasks: status is pending and
every dependency id is in the completed set. -/
def isReady (completed : List String) (t : AgentTask) : Bool :=
  t.status == .pending && t.dependencies.all (fun d => completed.contains d)

/-- Adding task ids to the completed set (a Python set: duplicates are
ignored, modelled as a duplicate-free list in insertion order). -/
def addCompleted (completed : List String) (ids : List String) : List String :=
  ids.foldl (fun acc i => if i ∈ acc then acc else acc ++ [i]) completed

/-- One wave of execute_tasks: every ready task is run (asyncio.gather over
execute_task; each coroutine touches only its own task object, so a pointwise
map is a faithful embedding), all other tasks are untouched. -/
def waveUpdate (reg : Registry) (completed : List String) (tasks : List AgentTask) :
    List AgentTask :=
  tasks.map (fun t => if isReady completed t then execute_task reg t else t)

/-- Completed-set update after a wave: the ids of the ready tasks whose
status is completed after their run are added to the set. -/
def newCompleted (reg : Registry) (completed : List String) (tasks : List AgentTask) :
    List String :=
  addCompleted completed
    ((tasks.filter (isReady completed)).filterMap
      (fun t => if (execute_task reg t).status = .completed then some t.task_id else none))

/-- Reason the wave loop of execute_tasks stopped early, read off the two
break branches: failed tasks blocking progress (logger.warning branch), or no
ready tasks with no failures, logged as a possible circular dependency
(logger.error branch).  The two branches are the code's only way of telling a
failure stall from a structural stall. -/
inductive StallReason
  | blockedByFailure
  | structural
deriving DecidableEq, Repr

/-- Record of one wave: the task list as it stood when the ready set was
computed, and the ready tasks whose executors were invoked in that wave. -/
structure WaveLog where
  snapshot : List AgentTask
  invoked : List AgentTask
deriving DecidableEq, Repr

/-- Result of one execute_tasks pass: the final task list, the stall branch
taken (if any), and the per-wave invocation log. -/
structure ExecOutput where
  tasks : List AgentTask
  stall : Option StallReason
  trace : List WaveLog
deriving DecidableEq, Repr

/-- The while loop of MultiAgentOrchestrator.execute_tasks, with explicit
fuel: while len(completed) < len(tasks), compute the ready set; if empty,
break via the failure branch or the circular-dependency branch; otherwise run
the wave and add the newly completed ids.  Fuel exhaustion returns none;
executeLoop_isSome below shows fuel (number of pending tasks) + 1 always
suffices, so the fuel is a proof device, not a semantic change. -/
def executeLoop (reg : Registry) :
    Nat → List AgentTask → List String → Option ExecOutput
  | 0, _, _ => none
  | fuel + 1, tasks, completed =>
    if tasks.length ≤ completed.length then
      some { tasks := tasks, stall := none, trace := [] }
    else if tasks.filter (isReady completed) = [] then
      if tasks.any (fun t => t.status == .failed) then
        some { tasks := tasks, stall := some .blockedByFailure, trace := [] }
      else
        some { tasks := tasks, stall := some .structural, trace := [] }
    else
      (executeLoop reg fuel (waveUpdate reg completed tasks)
          (newCompleted reg completed tasks)).map
        (fun out =>
          { tasks := out.tasks, stall := out.stall,
            trace := { snapshot := tasks,
                       invoked := tasks.filter (isReady completed) } :: out.trace })

/-- MultiAgentOrchestrator.execute_tasks: run the wave loop from the empty
completed set.  The default is never used (see executeLoop_isSome). -/
def execute_tasks (reg : Registry) (tasks : List AgentTask) : ExecOutput :=
  (executeLoop reg (tasks.length + 1) tasks []).getD
    { tasks := tasks, stall := none, trace := [] }

/-- Parsed record of one task from the decomposition oracle's JSON, as read
by MultiAgentOrchestrator.decompose_task (dependencies default to []). -/
structure DecompSpec where
  task_id : String
  agent_type : String
  description : String
  dependencies : List String
deriving DecidableEq, Repr

/-- MultiAgentOrchestrator.decompose_task: on a successful, parsable oracle
response, build the AgentTask list; on any exception (LLM failure or
unparsable JSON, modelled as the error case) fall back to a single research
task whose description is the original task description. -/
def decompose_task (task_description : String)
    (oracle : Except String (List DecompSpec)) : List AgentTask :=
  match oracle with
  | .ok specs =>
      specs.map (fun s =>
        { task_id := s.task_id, agent_type := s.agent_type,
          description := s.description, dependencies := s.dependencies })
  | .error _ =>
      [{ task_id := "task_1", agent_type := "research",
         description := task_description, dependencies := [] }]

/-- MultiAgentOrchestrator.synthesize_results: on a successful synthesis
oracle call return its text; on an exception fall back to joining, with blank
lines, the output payloads of the tasks that are completed and have a result
(the Python condition status == completed and task.result). -/
def synthesize_results (tasks : List AgentTask)
    (oracle : Except String String) : String :=
  match oracle with
  | .ok synthesis => synthesis
  | .error _ =>
      String.intercalate "\n\n"
        (tasks.filterMap (fun t =>
          match t.status, t.result with
          | .completed, some d => some d.output
          | _, _ => none))

/-- Spec-side restatement of the synthesis fallback, written from the spec's
words for comparison: concatenation, blank-line separated, in graph order, of
the result values of all Completed SubTasks, with nothing from Failed ones. -/
def synthesisFallbackSpec (tasks : List AgentTask) : String :=
  String.intercalate "\n\n"
    ((tasks.filter (fun t => t.status == .completed)).map
      (fun t => match t.result with | some d => d.output | none => ""))

/-- TaskStatus from task_planner.py. -/
inductive TaskStatus
  | planned
  | in_progress
  | completed
  | failed
  | blocked
  | cancelled
deriving DecidableEq, Repr

/-- Parsed record of one step from the planning oracle's JSON, as read by
TaskPlanner.plan; complexity is read with step_data.get, so it may be
absent. -/
structure StepData where
  step_id : String
  description : String
  agent_type : String
  complexity : Option String
  dependencies : List String
  success_criteria : List String
  risks : List String
deriving DecidableEq, Repr

/-- PlanStep from task_planner.py.  estimated_time and estimated_tokens are
Python ints (the source applies int() to the scaled coefficient);
estimated_cost stays fractional.  Real-number coefficient arithmetic is
modelled over the rationals. -/
structure PlanStep where
  step_id : String
  description : String
  agent_type : String
  estimated_time : Int
  estimated_cost : Rat
  estimated_tokens : Int
  dependencies : List String
  success_criteria : List String
  risks : List String
  status : TaskStatus := .planned
  actual_time : Option Int := none
  actual_cost : Option Rat := none
deriving DecidableEq, Repr

/-- Caller constraints dictionary: the keys max_time, max_cost, max_tokens,
each possibly absent. -/
structure Constraints where
  max_time : Option Int := none
  max_cost : Option Rat := none
  max_tokens : Option Int := none
deriving DecidableEq, Repr

/-- ExecutionPlan from task_planner.py. -/
structure ExecutionPlan where
  goal : String
  steps : List PlanStep
  total_estimated_time : Int
  total_estimated_cost : Rat
  total_estimated_tokens : Int
  constraints : Constraints
  created_at : String
  updated_at : Option String := none
deriving DecidableEq, Repr

/-- Complexity multiplier from TaskPlanner.plan: the dict lookup with default
"medium" for a missing key and default 1.0 for an unknown value. -/
def complexity_multiplier (c : Option String) : Rat :=
  match c.getD "medium" with
  | "low" => 7 / 10
  | "high" => 3 / 2
  | _ => 1

/-- self.time_coefficients from TaskPlanner with its .get default of 30. -/
def time_coefficients (agent_type : String) : Rat :=
  match agent_type with
  | "research" => 30
  | "docs" => 20
  | "sheets" => 15
  | "slides" => 25
  | _ => 30

/-- self.cost_coefficients from TaskPlanner with its .get default of 0.02. -/
def cost_coefficients (agent_type : String) : Rat :=
  match agent_type with
  | "research" => 2 / 100
  | "docs" => 3 / 100
  | "sheets" => 2 / 100
  | "slides" => 3 / 100
  | _ => 2 / 100

/-- self.token_coefficients from TaskPlanner with its .get default of 2000. -/
def token_coefficients (agent_type : String) : Rat :=
  match agent_type with
  | "research" => 2000
  | "docs" => 3000
  | "sheets" => 1500
  | "slides" => 2500
  | _ => 2000

/-- Building one PlanStep in TaskPlanner.plan: the base coefficient times the
complexity multiplier, with int() applied to time and tokens.  All
coefficients and multipliers are nonnegative, so Python's truncation toward
zero coincides with the floor used here. -/
def mkStep (sd : StepData) : PlanStep :=
  { step_id := sd.step_id
    description := sd.description
    agent_type := sd.agent_type
    estimated_time := Rat.floor (time_coefficients sd.agent_type * complexity_multiplier sd.complexity)
    estimated_cost := cost_coefficients sd.agent_type * complexity_multiplier sd.complexity
    estimated_tokens := Rat.floor (token_coefficients sd.agent_type * complexity_multiplier sd.complexity)
    dependencies := sd.dependencies
    success_criteria := sd.success_criteria
    risks := sd.risks }

/-- TaskPlanner.plan: on a successful, parsable oracle response build the
steps and sum the totals; on an oracle exception (LLM failure or unparsable
output) the except branch logs and re-raises, so the error propagates. -/
def plan (goal : String) (constraints : Constraints) (created_at : String)
    (oracle : Except String (List StepData)) : Except String ExecutionPlan :=
  match oracle with
  | .error e => .error e
  | .ok stepData =>
      .ok { goal := goal
            steps := stepData.map mkStep
            total_estimated_time := ((stepData.map mkStep).map (fun s => s.estimated_time)).sum
            total_estimated_cost := ((stepData.map mkStep).map (fun s => s.estimated_cost)).sum
            total_estimated_tokens := ((stepData.map mkStep).map (fun s => s.estimated_tokens)).sum
            constraints := constraints
            created_at := created_at }

/-- Result dictionary of TaskPlanner.validate_constraints: the keys time,
cost, tokens, present exactly when the corresponding max_ key was present in
the constraints. -/
structure ConstraintChecks where
  time : Option Bool
  cost : Option Bool
  tokens : Option Bool
deriving DecidableEq, Repr

/-- TaskPlanner.validate_constraints: for each of max_time, max_cost,
max_tokens present in the constraints dict, record whether the corresponding
estimated total is within the limit; absent keys produce no entry. -/
def validate_constraints (p : ExecutionPlan) (constraints : Constraints) :
    ConstraintChecks :=
  { time := constraints.max_time.map (fun m => decide (p.total_estimated_time ≤ m))
    cost := constraints.max_cost.map (fun m => decide (p.total_estimated_cost ≤ m))
    tokens := constraints.max_tokens.map (fun m => decide (p.total_estimated_tokens ≤ m)) }

/-- TaskPlanner.replan: the try block first awaits the LLM (first oracle
interaction), then calls self.plan again (second oracle interaction) and
stamps updated_at on the new plan; any exception in the try block is caught
and the original plan object is returned unchanged. -/
def replan (original : ExecutionPlan) (ainvoke : Except String String)
    (planOracle : Except String (List StepData))
    (created_at updated_at : String) : ExecutionPlan :=
  match ainvoke with
  | .error _ => original
  | .ok _ =>
      match plan original.goal original.constraints created_at planOracle with
      | .error _ => original
      | .ok p => { p with updated_at := some updated_at }

/-- Example executor registry for concrete runs: every run succeeds with
output "r". -/
def regAllW : Registry := fun _ _ => .ok { success := true, output := "r", error := none }

/-- Example executor registry in which the run described by "dA" reports
failure and every other run succeeds. -/
def regFailA : Registry := fun _ d =>
  if d = "dA" then .ok { success := false, output := "", error := some "boomA" }
  else .ok { success := true, output := "ok", error := none }

/-- Example executor registry in which every run raises. -/
def regFault : Registry := fun _ _ => .fault "agent crashed"

/-- Example task A with no dependencies. -/
def taskAW : AgentTask :=
  { task_id := "A", agent_type := "research", description := "dA", dependencies := [] }

/-- Example task B depending on A. -/
def taskBW : AgentTask :=
  { task_id := "B", agent_type := "docs", description := "dB", dependencies := ["A"] }

/-- Example independent task C. -/
def taskCW : AgentTask :=
  { task_id := "C", agent_type := "research", description := "dC", dependencies := [] }

/-- Example task A of a two-cycle: A depends on B. -/
def cycAW : AgentTask :=
  { task_id := "A", agent_type := "research", description := "dA", dependencies := ["B"] }

/-- Example task B of a two-cycle: B depends on A. -/
def cycBW : AgentTask :=
  { task_id := "B", agent_type := "research", description := "dB", dependencies := ["A"] }

/-- Success dictionary returned by regAllW. -/
def dRW : RunDict := { success := true, output := "r", error := none }

/-- Success dictionary returned by regFailA for non-"dA" runs. -/
def dOkW : RunDict := { success := true, output := "ok", error := none }

/-- Task A after completing under regAllW. -/
def doneTaskAW : AgentTask := { taskAW with status := .completed, result := some dRW }

/-- Task A after failing under regFailA. -/
def failedTaskAW : AgentTask := { taskAW with status := .failed, error := some "boomA" }

/-- Task C after completing under regFailA. -/
def doneTaskCW : AgentTask := { taskCW with status := .completed, result := some dOkW }

/-- Example completed task with output "alpha". -/
def doneAW : AgentTask :=
  { task_id := "A", agent_type := "research", description := "dA", dependencies := [],
    status := .completed,
    result := some { success := true, output := "alpha", error := none } }

/-- Example failed task. -/
def failBW : AgentTask :=
  { task_id := "B", agent_type := "docs", description := "dB", dependencies := [],
    status := .failed, error := some "boom" }

/-- Example completed task with output "beta". -/
def doneCW : AgentTask :=
  { task_id := "C", agent_type := "docs", description := "dC", dependencies := [],
    status := .completed,
    result := some { success := true, output := "beta", error := none } }

/-- Example oracle step: a research step of medium complexity. -/
def stepResearchMedium : StepData :=
  { step_id := "step_1", description := "gather data", agent_type := "research",
    complexity := some "medium", dependencies := [],
    success_criteria := [], risks := [] }

/-- Example oracle step: a docs step of high complexity. -/
def stepDocsHigh : StepData :=
  { step_id := "step_2", description := "write report", agent_type := "docs",
    complexity := some "high", dependencies := ["step_1"],
    success_criteria := [], risks := [] }

/-- Example oracle step: a sheets step of high complexity, whose scaled time
coefficient 15 * 1.5 = 22.5 is not an integer. -/
def stepSheetsHigh : StepData :=
  { step_id := "step_1", description := "make sheet", agent_type := "sheets",
    complexity := some "high", dependencies := [],
    success_criteria := [], risks := [] }

/-- Plan produced from the two-step example of the spec (the match's error
arm is unreachable because the oracle value is ok). -/
def examplePlan : ExecutionPlan :=
  match plan "renewables report" {} "t0" (.ok [stepResearchMedium, stepDocsHigh]) with
  | .ok p => p
  | .error _ =>
      { goal := "", steps := [], total_estimated_time := 0, total_estimated_cost := 0,
        total_estimated_tokens := 0, constraints := {}, created_at := "" }

/-- Invariant of the wave loop: every id in the completed set is the id of a
task, in the current task list, whose status is completed. -/
def CompletedInv (tasks : List AgentTask) (completed : List String) : Prop :=
  ∀ i ∈ completed, ∃ u ∈ tasks, u.task_id = i ∧ u.status = .completed

/-- Executor model in which every run returns a success dictionary (the
claim's hypothesis that no task fails during the pass). -/
def AllSuccess (reg : Registry) : Prop :=
  ∀ a d, ∃ r, reg a d = .ok r ∧ r.success = true

/-- Structural defect of a task graph relative to a completed set: a
nonempty set S of pending tasks such that each member has some dependency
that is not yet completed and can only be resolved by members of S itself
(this covers both a dependency cycle, where the dependency names another
member of the cycle, and a dependency naming no existing task id, where the
resolution condition holds vacuously). -/
def Trapped (tasks : List AgentTask) (completed : List String)
    (S : List AgentTask) : Prop :=
  S ≠ [] ∧ ∀ t ∈ S, t ∈ tasks ∧ t.status = .pending ∧
    ∃ d ∈ t.dependencies, d ∉ completed ∧ ∀ u ∈ tasks, u.task_id = d → u ∈ S

/-! Basic lemmas about one task execution and the completed set. -/

theorem execute_task_task_id (reg : Registry) (t : AgentTask) :
    (execute_task reg t).task_id = t.task_id := by
  unfold execute_task
  cases reg t.agent_type t.description with
  | fault msg => rfl
  | ok d => by_cases hd : d.success <;> simp [hd]

theorem execute_task_not_pending (reg : Registry) (t : AgentTask) :
    (execute_task reg t).status ≠ .pending := by
  unfold execute_task
  cases reg t.agent_type t.description with
  | fault msg => simp
  | ok d => by_cases hd : d.success <;> simp [hd]

theorem isReady_iff (completed : List String) (t : AgentTask) :
    isReady completed t = true ↔
      t.status = .pending ∧ ∀ d ∈ t.dependencies, d ∈ completed := by
  simp [isReady, List.all_eq_true]

theorem mem_addCompleted (c ids : List String) (j : String) :
    j ∈ addCompleted c ids ↔ j ∈ c ∨ j ∈ ids := by
  induction ids generalizing c with
  | nil => simp [addCompleted]
  | cons i ids ih =>
      show j ∈ addCompleted (if i ∈ c then c else c ++ [i]) ids ↔ _
      rw [ih]
      by_cases hi : i ∈ c <;> simp [hi] <;> aesop

theorem addCompleted_nodup (c ids : List String) (h : c.Nodup) :
    (addCompleted c ids).Nodup := by
  induction ids generalizing c with
  | nil => exact h
  | cons i ids ih =>
      show (addCompleted (if i ∈ c then c else c ++ [i]) ids).Nodup
      by_cases hi : i ∈ c
      · simpa [hi] using ih c h
      · simp only [hi, if_false]
        exact ih _ (by simp [List.nodup_append, h, hi])

/-- Unfolding of one iteration of the wave loop. -/
theorem executeLoop_succ (reg : Registry) (fuel : Nat) (tasks : List AgentTask)
    (completed : List String) :
    executeLoop reg (fuel + 1) tasks completed =
      if tasks.length ≤ completed.length then
        some { tasks := tasks, stall := none, trace := [] }
      else if tasks.filter (isReady completed) = [] then
        if tasks.any (fun t => t.status == .failed) then
          some { tasks := tasks, stall := some .blockedByFailure, trace := [] }
        else
          some { tasks := tasks, stall := some .structural, trace := [] }
      else
        (executeLoop reg fuel (waveUpdate reg completed tasks)
            (newCompleted reg completed tasks)).map
          (fun out =>
            { tasks := out.tasks, stall := out.stall,
              trace := { snapshot := tasks,
                         invoked := tasks.filter (isReady completed) } :: out.trace }) :=
  rfl

theorem completed_not_ready {completed : List String} {u : AgentTask}
    (h : u.status ≠ .pending) : isReady completed u = false := by
  cases hr : isReady completed u
  · rfl
  · exact absurd ((isReady_iff completed u).mp hr).1 h

theorem mem_waveUpdate_of_not_pending {reg : Registry} {completed : List String}
    {tasks : List AgentTask} {u : AgentTask} (hu : u ∈ tasks)
    (h : u.status ≠ .pending) : u ∈ waveUpdate reg completed tasks := by
  unfold waveUpdate
  rw [List.mem_map]
  exact ⟨u, hu, by rw [completed_not_ready h]; simp⟩

theorem completedInv_step {reg : Registry} {tasks : List AgentTask}
    {completed : List String} (h : CompletedInv tasks completed) :
    CompletedInv (waveUpdate reg completed tasks) (newCompleted reg completed tasks) := by
  intro i hi
  rw [newCompleted, mem_addCompleted] at hi
  rcases hi with hi | hi
  · obtain ⟨u, hu, hid, hst⟩ := h i hi
    exact ⟨u, mem_waveUpdate_of_not_pending hu (by rw [hst]; simp), hid, hst⟩
  · rw [List.mem_filterMap] at hi
    obtain ⟨t, ht, hsel⟩ := hi
    rw [List.mem_filter] at ht
    split at hsel
    · next hcomp =>
        refine ⟨execute_task reg t, ?_, ?_, hcomp⟩
        · unfold waveUpdate
          rw [List.mem_map]
          exact ⟨t, ht.1, by rw [ht.2]; simp⟩
        · rw [execute_task_task_id]
          exact Option.some_inj.mp hsel
    · exact absurd hsel (by simp)

/-- Core trace specification of the wave loop: under the completed-set
invariant, every task invoked in a wave was pending at the wave's snapshot
and every one of its dependencies named a task of the snapshot whose status
was already completed. -/
theorem trace_spec (reg : Registry) :
    ∀ (fuel : Nat) (tasks : List AgentTask) (completed : List String)
      (out : ExecOutput),
      executeLoop reg fuel tasks completed = some out →
      CompletedInv tasks completed →
      ∀ w ∈ out.trace, ∀ t ∈ w.invoked,
        t.status = .pending ∧
        ∀ d ∈ t.dependencies, ∃ u ∈ w.snapshot, u.task_id = d ∧ u.status = .completed := by
  intro fuel
  induction fuel with
  | zero => intro tasks completed out h; exact absurd h (by simp [executeLoop])
  | succ fuel ih =>
      intro tasks completed out h hinv w hw t ht
      rw [executeLoop_succ] at h
      split at h
      · cases h; simp at hw
      · split at h
        · split at h <;> · cases h; simp at hw
        · rw [Option.map_eq_some'] at h
          obtain ⟨out2, h2, hout⟩ := h
          subst hout
          simp only [List.mem_cons] at hw
          rcases hw with hw | hw
          · subst hw
            simp only [List.mem_filter] at ht
            obtain ⟨hmem, hready⟩ := ht
            obtain ⟨hpend, hdeps⟩ := (isReady_iff completed t).mp hready
            refine ⟨hpend, fun d hd => ?_⟩
            obtain ⟨u, hu, hid, hst⟩ := hinv d (hdeps d hd)
            exact ⟨u, hu, hid, hst⟩
          · exact ih _ _ out2 h2 (completedInv_step hinv) w hw t ht

/-- Ids are preserved across one wave. -/
theorem waveUpdate_map_task_id (reg : Registry) (completed : List String)
    (tasks : List AgentTask) :
    (waveUpdate reg completed tasks).map (fun t => t.task_id) =
      tasks.map (fun t => t.task_id) := by
  unfold waveUpdate
  rw [List.map_map]
  refine List.map_congr_left (fun t _ => ?_)
  by_cases hr : isReady completed t = true <;> simp [hr, execute_task_task_id]

/-- Terminal task records are never touched by later waves of the loop: a
record that is not pending is a member of the final task list unchanged. -/
theorem terminal_persist (reg : Registry) :
    ∀ (fuel : Nat) (tasks : List AgentTask) (completed : List String)
      (out : ExecOutput),
      executeLoop reg fuel tasks completed = some out →
      ∀ u ∈ tasks, u.status ≠ .pending → u ∈ out.tasks := by
  intro fuel
  induction fuel with
  | zero => intro tasks completed out h; exact absurd h (by simp [executeLoop])
  | succ fuel ih =>
      intro tasks completed out h u hu hst
      rw [executeLoop_succ] at h
      split at h
      · cases h; exact hu
      · split at h
        · split at h <;> · cases h; exact hu
        · rw [Option.map_eq_some'] at h
          obtain ⟨out2, h2, hout⟩ := h
          subst hout
          exact ih _ _ out2 h2 u (mem_waveUpdate_of_not_pending hu hst) hst

/-- Every wave snapshot's terminal records survive unchanged into the final
task list. -/
theorem snapshot_terminal_persist (reg : Registry) :
    ∀ (fuel : Nat) (tasks : List AgentTask) (completed : List String)
      (out : ExecOutput),
      executeLoop reg fuel tasks completed = some out →
      ∀ w ∈ out.trace, ∀ u ∈ w.snapshot, u.status ≠ .pending → u ∈ out.tasks := by
  intro fuel
  induction fuel with
  | zero => intro tasks completed out h; exact absurd h (by simp [executeLoop])
  | succ fuel ih =>
      intro tasks completed out h w hw u hu hst
      rw [executeLoop_succ] at h
      split at h
      · cases h; simp at hw
      · split at h
        · split at h <;> · cases h; simp at hw
        · rw [Option.map_eq_some'] at h
          obtain ⟨out2, h2, hout⟩ := h
          subst hout
          simp only [List.mem_cons] at hw
          rcases hw with hw | hw
          · subst hw
            exact terminal_persist reg _ _ _ out2 h2 u
              (mem_waveUpdate_of_not_pending hu hst) hst
          · exact ih _ _ out2 h2 w hw u hu hst

/-- Injectivity of ids over a duplicate-free task list. -/
theorem task_id_inj {tasks : List AgentTask}
    (h : (tasks.map (fun t => t.task_id)).Nodup) {u v : AgentTask}
    (hu : u ∈ tasks) (hv : v ∈ tasks) (hid : u.task_id = v.task_id) : u = v :=
  List.inj_on_of_nodup_map h hu hv hid

/-- Once some task in the current list with a given id is non-pending, no
later wave ever invokes a task with that id (ids assumed unique). -/
theorem not_invoked_later (reg : Registry) :
    ∀ (fuel : Nat) (tasks : List AgentTask) (completed : List String)
      (out : ExecOutput),
      executeLoop reg fuel tasks completed = some out →
      (tasks.map (fun t => t.task_id)).Nodup →
      ∀ (i : String), (∃ u ∈ tasks, u.task_id = i ∧ u.status ≠ .pending) →
      ∀ w ∈ out.trace, ∀ t ∈ w.invoked, t.task_id ≠ i := by
  intro fuel
  induction fuel with
  | zero => intro tasks completed out h; exact absurd h (by simp [executeLoop])
  | succ fuel ih =>
      intro tasks completed out h hnd i hi w hw t ht
      rw [executeLoop_succ] at h
      split at h
      · cases h; simp at hw
      · split at h
        · split at h <;> · cases h; simp at hw
        · rw [Option.map_eq_some'] at h
          obtain ⟨out2, h2, hout⟩ := h
          subst hout
          simp only [List.mem_cons] at hw
          obtain ⟨u, hu, huid, hust⟩ := hi
          rcases hw with hw | hw
          · subst hw
            simp only [List.mem_filter] at ht
            intro heq
            have := task_id_inj hnd ht.1 hu (heq.trans huid.symm)
            subst this
            exact hust ((isReady_iff completed t).mp ht.2).1
          · refine ih _ _ out2 h2 ?_ i ?_ w hw t ht
            · rw [waveUpdate_map_task_id]; exact hnd
            · exact ⟨u, mem_waveUpdate_of_not_pending hu hust, huid, hust⟩

/-- Across one whole pass, no task id is invoked twice (ids assumed
unique): each wave invokes pending tasks only, and an invoked task is
terminal in every later state. -/
theorem invoked_nodup_loop (reg : Registry) :
    ∀ (fuel : Nat) (tasks : List AgentTask) (completed : List String)
      (out : ExecOutput),
      executeLoop reg fuel tasks completed = some out →
      (tasks.map (fun t => t.task_id)).Nodup →
      ((out.trace.map (fun w => w.invoked.map (fun t => t.task_id))).flatten).Nodup := by
  intro fuel
  induction fuel with
  | zero => intro tasks completed out h; exact absurd h (by simp [executeLoop])
  | succ fuel ih =>
      intro tasks completed out h hnd
      rw [executeLoop_succ] at h
      split at h
      · cases h; simp
      · split at h
        · split at h <;> · cases h; simp
        · rw [Option.map_eq_some'] at h
          obtain ⟨out2, h2, hout⟩ := h
          subst hout
          simp only [List.map_cons, List.flatten_cons]
          rw [List.nodup_append]
          refine ⟨?_, ?_, ?_⟩
          · exact ((List.filter_sublist tasks).map (fun t => t.task_id)).nodup hnd
          · exact ih _ _ out2 h2 (by rw [waveUpdate_map_task_id]; exact hnd)
          · intro i hi hi2
            simp only [List.mem_map, List.mem_filter] at hi
            obtain ⟨t, ⟨hmem, hready⟩, hid⟩ := hi
            have hterm : ∃ u ∈ waveUpdate reg completed tasks,
                u.task_id = i ∧ u.status ≠ .pending := by
              refine ⟨execute_task reg t, ?_, by rw [execute_task_task_id]; exact hid,
                execute_task_not_pending reg t⟩
              unfold waveUpdate
              rw [List.mem_map]
              exact ⟨t, hmem, by rw [hready]; simp⟩
            rw [List.mem_flatten] at hi2
            obtain ⟨li, hli, hi3⟩ := hi2
            rw [List.mem_map] at hli
            obtain ⟨w, hw, hli2⟩ := hli
            subst hli2
            rw [List.mem_map] at hi3
            obtain ⟨t2, ht2, hid2⟩ := hi3
            exact not_invoked_later reg fuel _ _ out2 h2
              (by rw [waveUpdate_map_task_id]; exact hnd) i hterm w hw t2 ht2 hid2

/-- Strict count decrease: a predicate that implies another, failing at some
member where the other holds, counts strictly fewer elements. -/
theorem countP_lt_of {α : Type} (p q : α → Bool) (l : List α)
    (h1 : ∀ a ∈ l, p a = true → q a = true) (a : α) (ha : a ∈ l)
    (hq : q a = true) (hp : p a = false) : l.countP p < l.countP q := by
  induction l with
  | nil => simp at ha
  | cons b l ihl =>
      rw [List.countP_cons, List.countP_cons]
      rcases List.mem_cons.mp ha with hab | ha2
      · subst hab
        have := List.countP_mono_left (l := l) (p := p) (q := q)
          (fun x hx => h1 x (List.mem_cons_of_mem _ hx))
        simp only [hp, hq]
        simp
        omega
      · have hb := h1 b (List.mem_cons_self b l)
        have hl := ihl (fun x hx => h1 x (List.mem_cons_of_mem _ hx)) ha2
        cases hpb : p b with
        | true => have hqb := hb hpb; rw [hqb]; simp; omega
        | false =>
            cases hqb : q b with
            | true => simp; omega
            | false => simp; omega

/-- The number of pending tasks strictly decreases across every executed
wave. -/
theorem pending_decrease (reg : Registry) (completed : List String)
    (tasks : List AgentTask) (hne : tasks.filter (isReady completed) ≠ []) :
    (waveUpdate reg completed tasks).countP (fun t => t.status == .pending) <
      tasks.countP (fun t => t.status == .pending) := by
  obtain ⟨a, ha⟩ := List.exists_mem_of_ne_nil _ hne
  rw [List.mem_filter] at ha
  unfold waveUpdate
  rw [List.countP_map]
  refine countP_lt_of _ _ tasks (fun t _ hpt => ?_) a ha.1
    (by simp [((isReady_iff completed a).mp ha.2).1]) ?_
  · by_cases hr : isReady completed t = true
    · exact absurd hpt (by simp [Function.comp, hr, execute_task_not_pending reg t])
    · rw [Bool.not_eq_true] at hr
      simpa [Function.comp, hr] using hpt
  · simp only [Function.comp, ha.2, if_true]
    simp [execute_task_not_pending reg a]

/-- The wave loop always returns within (number of pending tasks) + 1
iterations: the fuel in execute_tasks is sufficient for every input. -/
theorem executeLoop_isSome (reg : Registry) :
    ∀ (fuel : Nat) (tasks : List AgentTask) (completed : List String),
      tasks.countP (fun t => t.status == .pending) < fuel →
      (executeLoop reg fuel tasks completed).isSome := by
  intro fuel
  induction fuel with
  | zero => intro tasks completed h; omega
  | succ fuel ih =>
      intro tasks completed h
      rw [executeLoop_succ]
      split
      · simp
      · split
        · split <;> simp
        · next hne =>
            have := ih (waveUpdate reg completed tasks) (newCompleted reg completed tasks)
              (by have := pending_decrease reg completed tasks hne; omega)
            rw [Option.isSome_iff_exists] at this ⊢
            obtain ⟨out2, h2⟩ := this
            exact ⟨_, by rw [h2]; rfl⟩

/-- The wave loop of execute_tasks at its actual fuel: there is always a
result, and execute_tasks returns it. -/
theorem execute_tasks_spec (reg : Registry) (tasks : List AgentTask) :
    ∃ out, executeLoop reg (tasks.length + 1) tasks [] = some out ∧
      execute_tasks reg tasks = out := by
  have h := executeLoop_isSome reg (tasks.length + 1) tasks []
    (Nat.lt_succ_of_le (List.countP_le_length _))
  rw [Option.isSome_iff_exists] at h
  obtain ⟨out, hout⟩ := h
  exact ⟨out, hout, by unfold execute_tasks; rw [hout]; rfl⟩

/-- The loop executes strictly fewer waves than its fuel. -/
theorem trace_length_lt (reg : Registry) :
    ∀ (fuel : Nat) (tasks : List AgentTask) (completed : List String)
      (out : ExecOutput),
      executeLoop reg fuel tasks completed = some out →
      out.trace.length < fuel := by
  intro fuel
  induction fuel with
  | zero => intro tasks completed out h; exact absurd h (by simp [executeLoop])
  | succ fuel ih =>
      intro tasks completed out h
      rw [executeLoop_succ] at h
      split at h
      · cases h; simp
      · split at h
        · split at h <;> · cases h; simp
        · rw [Option.map_eq_some'] at h
          obtain ⟨out2, h2, hout⟩ := h
          subst hout
          have := ih _ _ out2 h2
          simpa using this

theorem execute_task_allSuccess {reg : Registry} (h : AllSuccess reg)
    (t : AgentTask) : (execute_task reg t).status = .completed := by
  obtain ⟨r, hr, hs⟩ := h t.agent_type t.description
  unfold execute_task
  rw [hr]
  simp [hs]

theorem no_failed_waveUpdate {reg : Registry} {completed : List String}
    {tasks : List AgentTask} (hreg : AllSuccess reg)
    (h : ∀ t ∈ tasks, t.status ≠ .failed) :
    ∀ t ∈ waveUpdate reg completed tasks, t.status ≠ .failed := by
  intro t ht
  unfold waveUpdate at ht
  rw [List.mem_map] at ht
  obtain ⟨u, hu, hut⟩ := ht
  subst hut
  by_cases hr : isReady completed u = true
  · rw [hr]
    simp only [if_true]
    rw [execute_task_allSuccess hreg u]
    simp
  · rw [Bool.not_eq_true] at hr
    rw [hr]
    simpa using h u hu

theorem trapped_not_ready {tasks : List AgentTask} {completed : List String}
    {S : List AgentTask} (h : Trapped tasks completed S) :
    ∀ t ∈ S, isReady completed t = false := by
  intro t ht
  obtain ⟨-, -, d, hd, hdc, -⟩ := h.2 t ht
  cases hr : isReady completed t
  · rfl
  · exact absurd (((isReady_iff completed t).mp hr).2 d hd) hdc

theorem trapped_step {reg : Registry} {tasks : List AgentTask}
    {completed : List String} {S : List AgentTask}
    (h : Trapped tasks completed S) :
    Trapped (waveUpdate reg completed tasks) (newCompleted reg completed tasks) S := by
  obtain ⟨hSne, hS⟩ := h
  refine ⟨hSne, fun t ht => ?_⟩
  obtain ⟨hmem, hpend, d, hd, hdc, hres⟩ := hS t ht
  refine ⟨?_, hpend, d, hd, ?_, ?_⟩
  · unfold waveUpdate
    rw [List.mem_map]
    exact ⟨t, hmem, by rw [trapped_not_ready ⟨hSne, hS⟩ t ht]; simp⟩
  · rw [newCompleted, mem_addCompleted]
    rintro (hdc2 | hdnew)
    · exact hdc hdc2
    · rw [List.mem_filterMap] at hdnew
      obtain ⟨u, hu, hsel⟩ := hdnew
      rw [List.mem_filter] at hu
      have huid : u.task_id = d := by
        split at hsel
        · exact Option.some_inj.mp hsel
        · exact absurd hsel (by simp)
      have huS : u ∈ S := hres u hu.1 huid
      have := trapped_not_ready ⟨hSne, hS⟩ u huS
      rw [hu.2] at this
      exact absurd this (by simp)
  · intro u hu huid
    unfold waveUpdate at hu
    rw [List.mem_map] at hu
    obtain ⟨v, hv, hvu⟩ := hu
    by_cases hrv : isReady completed v = true
    · rw [hrv] at hvu
      simp only [if_true] at hvu
      have hvid : v.task_id = d := by
        rw [← huid, ← hvu, execute_task_task_id]
      have hvS : v ∈ S := hres v hv hvid
      have := trapped_not_ready ⟨hSne, hS⟩ v hvS
      rw [hrv] at this
      exact absurd this (by simp)
    · rw [Bool.not_eq_true] at hrv
      rw [hrv] at hvu
      simp at hvu
      subst hvu
      exact hres v hv huid

/-- Under the completed-set invariant, a completed set without duplicates
cannot reach the size of the task list while some task is not completed
(ids assumed unique). -/
theorem completed_length_lt {tasks : List AgentTask} {completed : List String}
    (hcd : completed.Nodup)
    (hinv : CompletedInv tasks completed) {t : AgentTask} (ht : t ∈ tasks)
    (hst : t.status ≠ .completed) : completed.length < tasks.length := by
  have hsub : completed ⊆
      (tasks.filter (fun u => u.status == .completed)).map (fun u => u.task_id) := by
    intro i hi
    obtain ⟨u, hu, hid, hust⟩ := hinv i hi
    rw [List.mem_map]
    exact ⟨u, List.mem_filter.mpr ⟨hu, by simp [hust]⟩, hid⟩
  have h1 : completed.length ≤
      ((tasks.filter (fun u => u.status == .completed)).map (fun u => u.task_id)).length :=
    (hcd.subperm hsub).length_le
  rw [List.length_map] at h1
  have h2 : (tasks.filter (fun u => u.status == .completed)).length < tasks.length := by
    have hle := List.length_filter_le (fun u => u.status == AStatus.completed) tasks
    rcases Nat.lt_or_ge (tasks.filter (fun u => u.status == .completed)).length
      tasks.length with hlt | hge
    · exact hlt
    · have heq : (tasks.filter (fun u => u.status == .completed)).length = tasks.length :=
        Nat.le_antisymm hle hge
      rw [List.filter_length_eq_length] at heq
      exact absurd (by simpa using heq t ht) hst
  omega

/-- Main lemma for structural-error detection: from a trapped set, with no
failed task and an all-success executor, the loop always ends in the
structural-stall branch. -/
theorem structural_stall (reg : Registry) :
    ∀ (fuel : Nat) (tasks : List AgentTask) (completed : List String)
      (out : ExecOutput) (S : List AgentTask),
      executeLoop reg fuel tasks completed = some out →
      Trapped tasks completed S →
      (tasks.map (fun t => t.task_id)).Nodup →
      completed.Nodup →
      CompletedInv tasks completed →
      (∀ t ∈ tasks, t.status ≠ .failed) →
      AllSuccess reg →
      out.stall = some .structural := by
  intro fuel
  induction fuel with
  | zero => intro tasks completed out S h; exact absurd h (by simp [executeLoop])
  | succ fuel ih =>
      intro tasks completed out S h htrap hnd hcd hinv hnf hreg
      obtain ⟨t0, ht0S⟩ := List.exists_mem_of_ne_nil _ htrap.1
      obtain ⟨ht0mem, ht0pend, -⟩ := htrap.2 t0 ht0S
      rw [executeLoop_succ] at h
      split at h
      · next hlen =>
          exact absurd hlen (Nat.not_le_of_lt
            (completed_length_lt hcd hinv ht0mem (by rw [ht0pend]; simp)))
      · split at h
        · split at h
          · next hfail =>
              rw [List.any_eq_true] at hfail
              obtain ⟨u, hu, hust⟩ := hfail
              exact absurd (by simpa using hust) (hnf u hu)
          · cases h; rfl
        · rw [Option.map_eq_some'] at h
          obtain ⟨out2, h2, hout⟩ := h
          subst hout
          have : out2.stall = some .structural :=
            ih _ _ out2 S h2 (trapped_step htrap)
              (by rw [waveUpdate_map_task_id]; exact hnd)
              (addCompleted_nodup _ _ hcd)
              (completedInv_step hinv)
              (no_failed_waveUpdate hreg hnf)
              hreg
          simpa using this

/-! Helper evaluation lemmas for the planner's coefficient tables. -/

theorem cm_low : complexity_multiplier (some "low") = 7 / 10 := rfl

theorem cm_medium : complexity_multiplier (some "medium") = 1 := rfl

theorem cm_high : complexity_multiplier (some "high") = 3 / 2 := rfl

theorem tc_research : time_coefficients "research" = 30 := rfl

theorem tc_docs : time_coefficients "docs" = 20 := rfl

theorem tc_sheets : time_coefficients "sheets" = 15 := rfl

theorem tc_slides : time_coefficients "slides" = 25 := rfl

theorem cc_research : cost_coefficients "research" = 2 / 100 := rfl

theorem cc_docs : cost_coefficients "docs" = 3 / 100 := rfl

theorem cc_sheets : cost_coefficients "sheets" = 2 / 100 := rfl

theorem cc_slides : cost_coefficients "slides" = 3 / 100 := rfl

theorem kc_research : token_coefficients "research" = 2000 := rfl

theorem kc_docs : token_coefficients "docs" = 3000 := rfl

theorem kc_sheets : token_coefficients "sheets" = 1500 := rfl

theorem kc_slides : token_coefficients "slides" = 2500 := rfl

/-- Totals of the spec's two-step example plan. -/
theorem examplePlan_totals :
    examplePlan.total_estimated_time = 60 ∧
    examplePlan.total_estimated_cost = 13 / 200 ∧
    examplePlan.total_estimated_tokens = 6500 := by
  refine ⟨?_, ?_, ?_⟩ <;>
    norm_num [examplePlan, plan, mkStep, stepResearchMedium, stepDocsHigh,
      cm_medium, cm_high, tc_research, tc_docs, cc_research, cc_docs,
      kc_research, kc_docs, Rat.floor]

/-- The filtered-and-mapped form of the synthesis fallback coincides with its
filterMap form whenever every completed task carries a result. -/
theorem fallback_filterMap_eq (tasks : List AgentTask)
    (h : ∀ t ∈ tasks, t.status = .completed → t.result.isSome) :
    (tasks.filterMap (fun t =>
      match t.status, t.result with
      | .completed, some d => some d.output
      | _, _ => none)) =
    ((tasks.filter (fun t => t.status == .completed)).map
      (fun t => match t.result with | some d => d.output | none => "")) := by
  induction tasks with
  | nil => rfl
  | cons t ts ih =>
      have ht := h t (List.mem_cons_self t ts)
      have hts := ih (fun u hu => h u (List.mem_cons_of_mem _ hu))
      rw [List.filterMap_cons, List.filter_cons]
      cases hst : t.status with
      | completed =>
          obtain ⟨d, hd⟩ := Option.isSome_iff_exists.mp (ht hst)
          rw [hd]
          simpa [hd] using hts
      | pending => simpa using hts
      | running => simpa using hts
      | failed => simpa using hts

/-! Claim theorems. -/

/-- C1, counterexample: the claim says planning never raises for
oracle-level failures, but TaskPlanner.plan re-raises the oracle's error at
this concrete input instead of returning a fallback graph. -/
theorem c1_plan_raises_counterexample :
    plan "write a report" {} "t0" (.error "oracle unreachable") =
      .error "oracle unreachable" := rfl

/-- C1, amended: when the decomposition oracle call fails or is unparsable,
the orchestrator's decompose_task returns a fallback graph of exactly one
task whose agent type is the generic default "research", whose description
equals the original goal, and whose dependency list is empty, so
orchestrator-level decomposition never raises for oracle failures;
TaskPlanner.plan, by contrast, propagates the oracle's error. -/
theorem c1_decompose_fallback (goal msg created_at : String) (c : Constraints) :
    decompose_task goal (.error msg) =
      [{ task_id := "task_1", agent_type := "research",
         description := goal, dependencies := [] }] ∧
    plan goal c created_at (.error msg) = .error msg :=
  ⟨rfl, rfl⟩

/-- C2: in every wave of an execute_tasks pass, every task whose executor is
invoked is pending at the wave's snapshot and every one of its declared
dependencies names a task of the snapshot whose status is already completed;
this is exactly the ready-set computation (pending, and all dependency ids in
the completed set, whose members are completed tasks). -/
theorem c2_dependency_ordering (reg : Registry) (tasks : List AgentTask)
    (w : WaveLog) (hw : w ∈ (execute_tasks reg tasks).trace)
    (t : AgentTask) (ht : t ∈ w.invoked) :
    t.status = .pending ∧
    ∀ d ∈ t.dependencies, ∃ u ∈ w.snapshot, u.task_id = d ∧ u.status = .completed := by
  obtain ⟨out, hout, heq⟩ := execute_tasks_spec reg tasks
  rw [heq] at hw
  exact trace_spec reg _ _ _ out hout (fun i hi => absurd hi (by simp)) w hw t ht

/-- C2, witness: in the concrete run of A then B (B depends on A), B is
invoked in the second wave, pending, with A completed in that snapshot. -/
theorem c2_dependency_ordering_witness :
    taskBW.status = .pending ∧
    ∀ d ∈ taskBW.dependencies,
      ∃ u ∈ [doneTaskAW, taskBW], u.task_id = d ∧ u.status = .completed :=
  c2_dependency_ordering regAllW [taskAW, taskBW]
    { snapshot := [doneTaskAW, taskBW], invoked := [taskBW] }
    (by decide) taskBW (by decide)

/-- C4: in the three-task graph where A's executor fails, B depends on A and
C is independent, after execute only A is failed (with the executor's error
recorded), B is never invoked and remains pending, C is completed, and the
pass stops in the blocked-by-failure branch. -/
theorem c4_partial_failure_isolation :
    (execute_tasks regFailA [taskAW, taskBW, taskCW]).tasks =
      [failedTaskAW, taskBW, doneTaskCW] ∧
    "B" ∉ ((execute_tasks regFailA [taskAW, taskBW, taskCW]).trace.map
      (fun w => w.invoked.map (fun t => t.task_id))).flatten ∧
    (execute_tasks regFailA [taskAW, taskBW, taskCW]).stall =
      some .blockedByFailure := by
  decide

/-- C5: a raised executor fault is treated exactly like a returned
success=false with the fault message as error: the task becomes failed with
that error; the result equals what an executor returning that failure
dictionary would produce; and any task's execution depends only on the
registry's outcome for that task, so one task's fault cannot change a
sibling's run. -/
theorem c5_fault_isolation (reg : Registry) (t : AgentTask) (msg : String)
    (h : reg t.agent_type t.description = .fault msg) :
    (execute_task reg t).status = .failed ∧
    (execute_task reg t).error = some msg ∧
    (∀ reg2 : Registry,
      reg2 t.agent_type t.description = .ok ⟨false, "", some msg⟩ →
      execute_task reg2 t = execute_task reg t) ∧
    (∀ (reg2 : Registry) (u : AgentTask),
      reg2 u.agent_type u.description = reg u.agent_type u.description →
      execute_task reg2 u = execute_task reg u) := by
  refine ⟨?_, ?_, ?_, ?_⟩
  · unfold execute_task; rw [h]
  · unfold execute_task; rw [h]
  · intro reg2 h2
    unfold execute_task
    rw [h, h2]
    simp
  · intro reg2 u h2
    unfold execute_task
    rw [h2]

/-- C5, witness: the always-raising registry on the concrete task A. -/
theorem c5_fault_isolation_witness :
    (execute_task regFault taskAW).status = .failed ∧
    (execute_task regFault taskAW).error = some "agent crashed" ∧
    (∀ reg2 : Registry,
      reg2 taskAW.agent_type taskAW.description = .ok ⟨false, "", some "agent crashed"⟩ →
      execute_task reg2 taskAW = execute_task regFault taskAW) ∧
    (∀ (reg2 : Registry) (u : AgentTask),
      reg2 u.agent_type u.description = regFault u.agent_type u.description →
      execute_task reg2 u = execute_task regFault u) :=
  c5_fault_isolation regFault taskAW "agent crashed" rfl

/-- C9: if either oracle interaction inside replan fails, replan returns the
original plan object unchanged (every field equal, nothing mutated). -/
theorem c9_replan_fallback (original : ExecutionPlan)
    (msg created_at updated_at resp : String)
    (planOracle : Except String (List StepData)) :
    replan original (.error msg) planOracle created_at updated_at = original ∧
    replan original (.ok resp) (.error msg) created_at updated_at = original :=
  ⟨rfl, rfl⟩

/-- C10: in one execute_tasks pass over tasks with unique ids, no task id is
ever invoked twice (a task is scheduled only while pending and every
invocation makes it terminal), and any record that is terminal at some
wave's snapshot appears unchanged, with its stored result and error, in the
final task list. -/
theorem c10_at_most_once (reg : Registry) (tasks : List AgentTask)
    (hnd : (tasks.map (fun t => t.task_id)).Nodup) :
    (((execute_tasks reg tasks).trace.map
        (fun w => w.invoked.map (fun t => t.task_id))).flatten).Nodup ∧
    (∀ w ∈ (execute_tasks reg tasks).trace, ∀ u ∈ w.snapshot,
      u.status ≠ .pending → u ∈ (execute_tasks reg tasks).tasks) := by
  obtain ⟨out, hout, heq⟩ := execute_tasks_spec reg tasks
  rw [heq]
  exact ⟨invoked_nodup_loop reg _ _ _ out hout hnd,
    fun w hw u hu hst => snapshot_terminal_persist reg _ _ _ out hout w hw u hu hst⟩

/-- C10, witness: the concrete partial-failure run has duplicate-free
invocations and its terminal snapshot records persist to the final list. -/
theorem c10_at_most_once_witness :
    (((execute_tasks regFailA [taskAW, taskBW, taskCW]).trace.map
        (fun w => w.invoked.map (fun t => t.task_id))).flatten).Nodup ∧
    (∀ w ∈ (execute_tasks regFailA [taskAW, taskBW, taskCW]).trace,
      ∀ u ∈ w.snapshot, u.status ≠ .pending →
        u ∈ (execute_tasks regFailA [taskAW, taskBW, taskCW]).tasks) :=
  c10_at_most_once regFailA [taskAW, taskBW, taskCW] (by decide)

/-- C3: for a task graph with a trapped set (a dependency cycle or a
dependency naming no existing task id, over pending tasks), unique ids, no
failed task, and executors that never fail, the wave loop terminates within
fuel bounded by the number of tasks (so it cannot spin), runs at most as
many waves as there are tasks, and stops in the structural-stall branch,
which is distinct from the blocked-by-failure branch. -/
theorem c3_structural_error_detection (reg : Registry) (tasks : List AgentTask)
    (S : List AgentTask) (htrap : Trapped tasks [] S)
    (hnd : (tasks.map (fun t => t.task_id)).Nodup)
    (hnf : ∀ t ∈ tasks, t.status ≠ .failed)
    (hreg : AllSuccess reg) :
    (executeLoop reg (tasks.length + 1) tasks []).isSome ∧
    (execute_tasks reg tasks).trace.length ≤ tasks.length ∧
    (execute_tasks reg tasks).stall = some .structural := by
  obtain ⟨out, hout, heq⟩ := execute_tasks_spec reg tasks
  refine ⟨by rw [hout]; rfl, ?_, ?_⟩
  · rw [heq]
    have := trace_length_lt reg _ _ _ out hout
    omega
  · rw [heq]
    exact structural_stall reg _ _ _ out S hout htrap hnd (by simp)
      (fun i hi => absurd hi (by simp)) hnf hreg

/-- C3, witness: the two-cycle A depends on B, B depends on A, with
all-succeeding executors. -/
theorem c3_structural_error_detection_witness :
    (executeLoop regAllW ([cycAW, cycBW].length + 1) [cycAW, cycBW] []).isSome ∧
    (execute_tasks regAllW [cycAW, cycBW]).trace.length ≤ [cycAW, cycBW].length ∧
    (execute_tasks regAllW [cycAW, cycBW]).stall = some .structural :=
  c3_structural_error_detection regAllW [cycAW, cycBW] [cycAW, cycBW]
    (by unfold Trapped; decide) (by decide) (by decide)
    (fun a d => ⟨dRW, rfl, rfl⟩)

/-- C6: when the synthesis oracle call fails, synthesize_results returns
exactly the blank-line-separated concatenation, in graph order, of the
result outputs of the completed tasks, as stated by the spec-side
definition, which mentions no failed task (assuming every completed task
carries a result, as one execute pass guarantees). -/
theorem c6_synthesis_fallback (tasks : List AgentTask) (msg : String)
    (h : ∀ t ∈ tasks, t.status = .completed → t.result.isSome) :
    synthesize_results tasks (.error msg) = synthesisFallbackSpec tasks := by
  unfold synthesize_results synthesisFallbackSpec
  rw [fallback_filterMap_eq tasks h]

/-- C6, witness: two completed tasks around a failed one concatenate to
exactly the two outputs, with nothing from the failed task. -/
theorem c6_synthesis_fallback_witness :
    synthesisFallbackSpec [doneAW, failBW, doneCW] = "alpha\n\nbeta" ∧
    synthesize_results [doneAW, failBW, doneCW] (.error "oracle down") =
      synthesisFallbackSpec [doneAW, failBW, doneCW] :=
  ⟨by decide, c6_synthesis_fallback [doneAW, failBW, doneCW] "oracle down" (by decide)⟩

/-- C7, counterexample: a sheets step at high complexity gets estimated_time
22, which is not the product 15 * 1.5 = 22.5 of the base coefficient and the
multiplier, because the source applies int() to the product. -/
theorem c7_truncation_counterexample :
    (mkStep stepSheetsHigh).estimated_time = 22 ∧
    ((mkStep stepSheetsHigh).estimated_time : Rat) ≠
      time_coefficients stepSheetsHigh.agent_type *
        complexity_multiplier stepSheetsHigh.complexity := by
  have h1 : (mkStep stepSheetsHigh).estimated_time = 22 := by
    norm_num [mkStep, stepSheetsHigh, tc_sheets, cm_high, Rat.floor]
  refine ⟨h1, ?_⟩
  rw [h1]
  norm_num [stepSheetsHigh, tc_sheets, cm_high]

/-- C7, amended: each step's time and token estimates are the per-kind base
coefficient times the complexity multiplier truncated to an integer, and the
cost estimate is the exact product; the multipliers are 0.7, 1.0, 1.5 for
low, medium, high; the default tables are research=30s/$0.02/2000tok,
docs=20s/$0.03/3000tok, sheets=15s/$0.02/1500tok, slides=25s/$0.03/2500tok,
with an unknown kind such as "video" falling back to the research
coefficients; graph totals are the sums over the steps; and the spec's
medium-research plus high-docs example totals 60 seconds, 0.065 currency
units, and 6500 tokens. -/
theorem c7_resource_estimates :
    (∀ sd : StepData,
      (mkStep sd).estimated_time =
        Rat.floor (time_coefficients sd.agent_type * complexity_multiplier sd.complexity) ∧
      (mkStep sd).estimated_cost =
        cost_coefficients sd.agent_type * complexity_multiplier sd.complexity ∧
      (mkStep sd).estimated_tokens =
        Rat.floor (token_coefficients sd.agent_type * complexity_multiplier sd.complexity)) ∧
    (∀ (goal created_at : String) (c : Constraints) (sds : List StepData),
      plan goal c created_at (.ok sds) =
        .ok { goal := goal, steps := sds.map mkStep,
              total_estimated_time :=
                ((sds.map mkStep).map (fun s => s.estimated_time)).sum,
              total_estimated_cost :=
                ((sds.map mkStep).map (fun s => s.estimated_cost)).sum,
              total_estimated_tokens :=
                ((sds.map mkStep).map (fun s => s.estimated_tokens)).sum,
              constraints := c, created_at := created_at }) ∧
    complexity_multiplier (some "low") = 7 / 10 ∧
    complexity_multiplier (some "medium") = 1 ∧
    complexity_multiplier (some "high") = 3 / 2 ∧
    (time_coefficients "research" = 30 ∧ cost_coefficients "research" = 2 / 100 ∧
      token_coefficients "research" = 2000) ∧
    (time_coefficients "docs" = 20 ∧ cost_coefficients "docs" = 3 / 100 ∧
      token_coefficients "docs" = 3000) ∧
    (time_coefficients "sheets" = 15 ∧ cost_coefficients "sheets" = 2 / 100 ∧
      token_coefficients "sheets" = 1500) ∧
    (time_coefficients "slides" = 25 ∧ cost_coefficients "slides" = 3 / 100 ∧
      token_coefficients "slides" = 2500) ∧
    (time_coefficients "video" = time_coefficients "research" ∧
      cost_coefficients "video" = cost_coefficients "research" ∧
      token_coefficients "video" = token_coefficients "research") ∧
    examplePlan.total_estimated_time = 60 ∧
    examplePlan.total_estimated_cost = 13 / 200 ∧
    examplePlan.total_estimated_tokens = 6500 :=
  ⟨fun _ => ⟨rfl, rfl, rfl⟩, fun _ _ _ _ => rfl,
   rfl, rfl, rfl, ⟨rfl, rfl, rfl⟩, ⟨rfl, rfl, rfl⟩, ⟨rfl, rfl, rfl⟩,
   ⟨rfl, rfl, rfl⟩, ⟨rfl, rfl, rfl⟩, examplePlan_totals.1,
   examplePlan_totals.2.1, examplePlan_totals.2.2⟩

/-- C8: validate_constraints is a pure function of the built plan and the
constraints: each of max_time, max_cost, max_tokens present in the
constraints yields exactly one boolean entry recording whether the
corresponding estimated total is within the limit, and an absent key yields
no entry at all; concretely, max_time = 50 against the 60-second example
plan gives time = some false, and without a max_time key the time entry is
none rather than some false. -/
theorem c8_validate_constraints :
    (∀ (p : ExecutionPlan) (c : Constraints),
      (validate_constraints p c).time =
        c.max_time.map (fun m => decide (p.total_estimated_time ≤ m)) ∧
      (validate_constraints p c).cost =
        c.max_cost.map (fun m => decide (p.total_estimated_cost ≤ m)) ∧
      (validate_constraints p c).tokens =
        c.max_tokens.map (fun m => decide (p.total_estimated_tokens ≤ m))) ∧
    (validate_constraints examplePlan { max_time := some 50 }).time = some false ∧
    (validate_constraints examplePlan { max_time := some 50 }).cost = none ∧
    (validate_constraints examplePlan { max_time := some 50 }).tokens = none ∧
    (validate_constraints examplePlan {}).time = none := by
  refine ⟨fun p c => ⟨rfl, rfl, rfl⟩, ?_, rfl, rfl, rfl⟩
  have h1 := examplePlan_totals.1
  simp [validate_constraints, h1]

end SuperAgent
